import Mathlib

/-
Verification of draw_berkeley_bart.py (BART Berkeley radial chart).

Shallow embedding notes:
  * Python ints are modelled as ℤ.  Python float (IEEE binary64) arithmetic
    appears in two forms: `_get_line_length` gives the exact rational value
    of the length formula (an idealization, used for the trace coordinates),
    and `floatLineLength` gives the bit-accurate binary64 evaluation, with
    every operation rounded to the nearest double (ties to even) by
    `roundDouble`.  The two can differ by one ulp, which is observable at
    the MAX_LEN boundary.
  * Fallible code paths return `Except PyError _`; the constructors mirror
    the Python exceptions raised by the source (KeyError for a missing dict
    key, ValueError for a failed int() conversion or max() of an empty
    sequence, ZeroDivisionError for division by zero).
  * Drawing calls made on the sketch object are recorded as a trace
    (`List Cmd`) in program order.
  * Python's `sorted` (a stable ascending sort) is modelled by
    `List.insertionSort`, which is also stable and ascending; a stable sort
    over a total preorder is extensionally unique, so this is faithful.
-/

namespace BartViz

/-- Python exceptions raised by the embedded code paths.  `keyError`
corresponds to the spec's MissingFieldError and `valueError` to its
MalformedRecordError. -/
inductive PyError where
  | keyError
  | valueError
  | zeroDivisionError
deriving DecidableEq

/-- Module constant BG_COLOR (line 18). -/
def BG_COLOR : String := "#EAEAEA"

/-- Module constant FG_COLOR (line 19). -/
def FG_COLOR : String := "#333333"

/-- Module constant TICK_COLOR (line 20). -/
def TICK_COLOR : String := "#FFFFFF"

/-- Module constant TITLE (line 21). -/
def TITLE : String := "Bart trips from Downtown Berkeley to other stations in March 2024."

/-- Module constant WIDTH (line 22). -/
def WIDTH : ℚ := 600

/-- Module constant HEIGHT (line 23). -/
def HEIGHT : ℚ := 600

/-- Module constant LINE_MIN_LEN (line 24). -/
def LINE_MIN_LEN : ℚ := 70

/-- Module constant LINE_MAX_LEN (line 25). -/
def LINE_MAX_LEN : ℚ := 210

/-- Module constant DEFAULT_DATA_LOCATION (line 17). -/
def DEFAULT_DATA_LOCATION : String := "berkeley_trips.csv"

/-- The Station data record (class Station, lines 28-67): name, code and
trip count. -/
structure Station where
  name : String
  code : String
  count : ℤ
deriving DecidableEq

/-- One raw CSV row as handed to `_parse_data_point`: a dictionary that may
or may not carry each of the three expected keys. -/
structure RawRow where
  name : Option String
  code : Option String
  count : Option String
deriving DecidableEq

/-- Python dict subscription `target[key]`: raises KeyError when the key is
absent. -/
def getField (v : Option String) : Except PyError String :=
  match v with
  | some s => .ok s
  | none => .error .keyError

/-- ASCII decimal digit test. -/
def isAsciiDigit (c : Char) : Bool := decide ('0' ≤ c) && decide (c ≤ '9')

/-- Numeric value of one ASCII digit. -/
def digitVal (c : Char) : ℤ := (c.toNat : ℤ) - 48

/-- Value of a list of decimal digits, most significant first. -/
def digitsValue (l : List Char) : ℤ := l.foldl (fun acc c => acc * 10 + digitVal c) 0

/-- Validity of the characters after the first one in the digit part
accepted by Python `int()`: digits possibly separated by single
underscores (an underscore must be followed by a digit). -/
def pyDigitsRest : List Char → Bool
  | [] => true
  | c :: rest =>
    (if c = '_' then
      match rest with
      | [] => false
      | d :: _ => isAsciiDigit d
    else isAsciiDigit c) && pyDigitsRest rest

/-- Validity of the digit part accepted by Python `int()`: nonempty, starts
with a digit, underscores only singly and between digits. -/
def pyValidDigits : List Char → Bool
  | [] => false
  | c :: rest => isAsciiDigit c && pyDigitsRest rest

/-- Python `str.strip()` as used by `int()`: surrounding whitespace is
removed (modelled for ASCII whitespace). -/
def pyStrip (cs : List Char) : List Char :=
  ((cs.dropWhile Char.isWhitespace).reverse.dropWhile Char.isWhitespace).reverse

/-- Python `int(s)` for a decimal string: optional surrounding whitespace,
an optional sign, then digits possibly separated by single underscores.
Returns none when Python would raise ValueError.  Note that a leading minus
sign is accepted, so the result may be negative. -/
def pyIntOfChars (cs : List Char) : Option ℤ :=
  match pyStrip cs with
  | '+' :: rest =>
    if pyValidDigits rest then some (digitsValue (rest.filter (fun c => c ≠ '_'))) else none
  | '-' :: rest =>
    if pyValidDigits rest then some (-(digitsValue (rest.filter (fun c => c ≠ '_')))) else none
  | t =>
    if pyValidDigits t then some (digitsValue (t.filter (fun c => c ≠ '_'))) else none

/-- Python `int(s)` raising ValueError on failure (line 106). -/
def pyInt (s : String) : Except PyError ℤ :=
  match pyIntOfChars s.data with
  | some n => .ok n
  | none => .error .valueError

/-- `count_str.replace(",", "")` (line 105): every comma is removed,
wherever it occurs. -/
def stripCommas (s : String) : String := ⟨s.data.filter (fun c => c ≠ ',')⟩

/-- DataFacade._parse_data_point (lines 95-107).  The source reads
`target['count']` first, converts it with `int`, then reads
`target['name']` and `target['code']` while building the Station. -/
def _parse_data_point (target : RawRow) : Except PyError Station := do
  let count_str ← getField target.count
  let count_str_clean := stripCommas count_str
  let count ← pyInt count_str_clean
  let name ← getField target.name
  let code ← getField target.code
  return { name := name, code := code, count := count }

/-- Ascending order on stations by trip count, the sort key of
`get_stations` (line 93). -/
def stationLE (a b : Station) : Prop := a.count ≤ b.count

instance : DecidableRel stationLE := fun a b =>
  decidable_of_iff (a.count ≤ b.count) Iff.rfl

instance : IsTotal Station stationLE := ⟨fun a b => Int.le_total a.count b.count⟩

instance : IsTrans Station stationLE := ⟨fun _ _ _ => Int.le_trans⟩

/-- DataFacade.get_stations (lines 81-93).  The data layer is modelled as a
function from a location to the rows stored there.  Note the source calls
`get_csv('berkeley_trips.csv')` with a hardcoded literal and never uses its
`loc` argument. -/
def get_stations (dataLayer : String → List RawRow) (loc : String) :
    Except PyError (List Station) := do
  let raw_data := dataLayer "berkeley_trips.csv"
  let parsed_data ← raw_data.mapM _parse_data_point
  return parsed_data.insertionSort stationLE

/-- One drawing command issued to the sketch, with the arguments the source
passes. -/
inductive Cmd where
  | clear (color : String)
  | clearStroke
  | clearFill
  | setFill (color : String)
  | setStroke (color : String)
  | setTextFont (font : String) (size : ℚ)
  | setTextAlign (horiz vert : String)
  | setEllipseMode (mode : String)
  | setAngleMode (mode : String)
  | drawText (x y : ℚ) (s : String)
  | drawEllipse (x y rx ry : ℚ)
  | drawLine (x1 y1 x2 y2 : ℚ)
  | pushTransform
  | popTransform
  | translate (x y : ℚ)
  | rotate (angle : ℚ)
deriving DecidableEq

/-- StationVizPresenter._get_line_length (lines 225-226):
`(LINE_MAX_LEN - LINE_MIN_LEN) / max_value * count + LINE_MIN_LEN`,
as the exact rational value of the formula (the idealization of the float
arithmetic, used for the coordinates recorded in the drawing trace; see
`floatLineLength` for the bit-accurate binary64 evaluation).  Python float
division raises ZeroDivisionError when `max_value == 0`. -/
def _get_line_length (max_value count : ℤ) : Except PyError ℚ :=
  if max_value = 0 then .error .zeroDivisionError
  else .ok ((LINE_MAX_LEN - LINE_MIN_LEN) / (max_value : ℚ) * (count : ℚ) + LINE_MIN_LEN)

/-- The exact rational value `_get_line_length` returns in the
non-degenerate case. -/
def lineLengthQ (max_value count : ℤ) : ℚ :=
  (LINE_MAX_LEN - LINE_MIN_LEN) / (max_value : ℚ) * (count : ℚ) + LINE_MIN_LEN

/-- One phase of the binary search for the floor of log2 of the ratio
`a / b` (`a, b ≥ 1`): while `b * factor ≤ a`, multiply `b` by `factor`
(`factor = 2 ^ shift`), accumulating `shift` per step.  Plain structural
recursion on a small fuel so that it evaluates by kernel reduction. -/
def flog2Scale (factor : ℕ) (shift : ℤ) : ℕ → ℕ → ℕ → (ℕ × ℕ × ℤ)
  | 0, a, b => (a, b, 0)
  | f + 1, a, b =>
    if b * factor ≤ a then
      let r := flog2Scale factor shift f a (b * factor)
      (r.1, r.2.1, r.2.2 + shift)
    else (a, b, 0)

/-- Companion phase for ratios below 1: while `a < b`, multiply `a` by
`factor` (`factor = 2 ^ shift`), subtracting `shift` per step. -/
def flog2Lift (factor : ℕ) (shift : ℤ) : ℕ → ℕ → ℕ → (ℕ × ℕ × ℤ)
  | 0, a, b => (a, b, 0)
  | f + 1, a, b =>
    if a < b then
      let r := flog2Lift factor shift f (a * factor) b
      (r.1, r.2.1, r.2.2 - shift)
    else (a, b, 0)

/-- Floor of log2 of the positive rational `a / b` (`a, b ≥ 1`): scale the
ratio into [1, 2) by chunks of 2^64, then 2^8, then 2, summing the binary
exponents.  Exact for `2 ^ -1536 ≤ a / b < 2 ^ 1600`, which covers the full
finite binary64 range; below that range the result is only an upper bound,
which still makes `roundDouble` underflow to 0 as IEEE 754 does. -/
def flog2Pair (a b : ℕ) : ℤ :=
  let u := flog2Lift 18446744073709551616 64 24 a b
  let s1 := flog2Scale 18446744073709551616 64 24 u.1 u.2.1
  let s2 := flog2Scale 256 8 8 s1.1 s1.2.1
  let s3 := flog2Scale 2 1 8 s2.1 s2.2.1
  u.2.2 + s1.2.2 + s2.2.2 + s3.2.2

/-- Nearest integer to `x`, ties to even — the rounding step of IEEE 754
round-to-nearest-even, written on the numerator and denominator so that it
evaluates by kernel reduction (`x.den > 0`, and `/` on ℤ is floor division
for a positive divisor, so `f = ⌊x⌋` and `r / d` is the fractional part). -/
def roundEvenInt (x : ℚ) : ℤ :=
  let d := Int.ofNat x.den
  let f := x.num / d
  let r := x.num - f * d
  if 2 * r < d then f
  else if d < 2 * r then f + 1
  else if f % 2 = 0 then f else f + 1

/-- Exact product `x * 2 ^ e`, built with `mkRat` (`1 <<< n = 2 ^ n`). -/
def mulPow2 (x : ℚ) (e : ℤ) : ℚ :=
  match e with
  | .ofNat n => mkRat (x.num * Int.ofNat (1 <<< n)) x.den
  | .negSucc n => mkRat x.num (x.den * (1 <<< (n + 1)))

/-- The binary64 grid exponent for a value `x ≠ 0`: one ulp of `x` is
`2 ^ expOf x`, i.e. `floor (log2 |x|) - 52` clamped below at `-1074` (the
subnormal grid).  `x.num.natAbs / x.den = |x|`. -/
def expOf (x : ℚ) : ℤ := max (-1074) (flog2Pair x.num.natAbs x.den - 52)

/-- Round a rational to the nearest IEEE binary64 value (round to nearest,
ties to even), returning the exact rational the resulting double denotes:
scale `x` by the ulp so the doubles near `x` become consecutive integers,
round ties-to-even, scale back.  When rounding up crosses a binade the
53-bit mantissa becomes `2 ^ 53`, which is the correct double at the next
exponent.  Faithful for all finite doubles; overflow to infinity (above
`2 ^ 1024`) is outside the model and never reached here. -/
def roundDouble (x : ℚ) : ℚ :=
  if x = 0 then 0
  else mulPow2 (mkRat (roundEvenInt (mulPow2 x (-expOf x))) 1) (expOf x)

/-- Exact rational product, built with `mkRat` so that it evaluates by
kernel reduction; `ratMul_eq` proves it equal to `*`. -/
def ratMul (a b : ℚ) : ℚ := mkRat (a.num * b.num) (a.den * b.den)

/-- Exact rational sum, built with `mkRat` so that it evaluates by kernel
reduction; `ratAdd_eq` proves it equal to `+`. -/
def ratAdd (a b : ℚ) : ℚ :=
  mkRat (a.num * Int.ofNat b.den + b.num * Int.ofNat a.den) (a.den * b.den)

/-- StationVizPresenter._get_line_length (lines 225-226) with bit-accurate
IEEE binary64 (CPython float) arithmetic:
`(LINE_MAX_LEN - LINE_MIN_LEN)` is the exact Python int 210 - 70 = 140;
`140 / max_value` is CPython int/int true division, i.e. the correctly
rounded double of the exact quotient `Rat.divInt 140 max_value`; the int
`count` is converted to a double (rounded) before the multiplication; each
float multiplication and addition rounds its exact result; and the int 70
(`LINE_MIN_LEN`) converts to a double exactly. -/
def floatLineLength (max_value count : ℤ) : Except PyError ℚ :=
  if max_value = 0 then .error .zeroDivisionError
  else .ok (roundDouble (ratAdd (roundDouble
    (ratMul (roundDouble (Rat.divInt (210 - 70) max_value))
      (roundDouble (mkRat count 1)))) (mkRat 70 1)))

/-- Insert a comma after every group of three characters of a reversed
digit list; helper for `formatThousands`. -/
def insertCommasRev : List Char → List Char
  | d1 :: d2 :: d3 :: d4 :: rest => d1 :: d2 :: d3 :: ',' :: insertCommasRev (d4 :: rest)
  | l => l

/-- Python `f'{value:,}'` for an integer: decimal digits grouped in threes
by commas (line 179). -/
def formatThousands (n : ℤ) : String :=
  if n < 0 then "-" ++ ⟨(insertCommasRev (Nat.toDigits 10 (-n).toNat).reverse).reverse⟩
  else ⟨(insertCommasRev (Nat.toDigits 10 n.toNat).reverse).reverse⟩

/-- Python `range(start, stop, step)` for a positive step: the arithmetic
progression from `start` while below `stop`. -/
def pythonRange (start stop step : ℤ) : List ℤ :=
  (List.range ((stop - start + step - 1) / step).toNat).map
    (fun k : ℕ => start + step * (k : ℤ))

/-- Python `max(iterable)`: raises ValueError on an empty sequence
(line 129). -/
def pyMax : List ℤ → Except PyError ℤ
  | [] => .error .valueError
  | x :: xs => .ok (xs.foldl max x)

/-- StationVizPresenter._draw_title (lines 135-141). -/
def _draw_title : List Cmd :=
  [ .clearStroke, .setFill FG_COLOR, .setTextFont "PublicSans-Regular.otf" 14,
    .setTextAlign "center" "center", .drawText (WIDTH / 2) (HEIGHT - 20) TITLE ]

/-- The tick values iterated by the axis loop:
`range(0, max_value + 5000, 5000)` (line 168). -/
def tickValues (max_value : ℤ) : List ℤ := pythonRange 0 (max_value + 5000) 5000

/-- The commands issued by one iteration of the tick loop once the radius
`x` is known (lines 172-179). -/
def tickCmds (x : ℚ) (value : ℤ) : List Cmd :=
  [ .clearFill, .setStroke TICK_COLOR, .drawEllipse 0 0 x x,
    .clearStroke, .setFill FG_COLOR, .drawText x 0 (formatThousands value) ]

/-- One iteration of the tick loop (lines 168-179): compute the radius,
then issue the ring and label commands. -/
def tickStep (max_value value : ℤ) : Except PyError (List Cmd) := do
  let x ← _get_line_length max_value value
  return tickCmds x value

/-- The commands issued by `_draw_axis` before the tick loop
(lines 151-167). -/
def axisHeader : List Cmd :=
  [ .pushTransform, .translate (WIDTH / 2) (HEIGHT / 2),
    .setTextAlign "center" "center", .setEllipseMode "radius",
    .clearStroke, .setFill FG_COLOR, .setTextFont "PublicSans-Regular.otf" 20,
    .drawText 0 0 "Berkeley", .setTextFont "PublicSans-Regular.otf" 10 ]

/-- StationVizPresenter._draw_axis (lines 143-183). -/
def _draw_axis (max_value : ℤ) : Except PyError (List Cmd) := do
  let sections ← (tickValues max_value).mapM (tickStep max_value)
  return axisHeader ++ sections.flatten ++ [Cmd.popTransform]

/-- The commands issued for one station once its length is known
(lines 205-218).  The line starts at the literal 70 the source writes. -/
def spokeCmds (num_lanes : ℕ) (length : ℚ) (record : Station) : List Cmd :=
  [ .rotate (360 / (num_lanes : ℚ)), .clearFill, .setStroke FG_COLOR,
    .drawLine 70 0 length 0,
    .clearStroke, .setFill FG_COLOR, .setTextFont "PublicSans-Regular.otf" 10,
    .setTextAlign "left" "center", .drawText (length + 2) 0 record.name ]

/-- One iteration of the station loop (lines 200-218): compute the length
first (line 202), then rotate and draw. -/
def spokeStep (max_value : ℤ) (num_lanes : ℕ) (record : Station) :
    Except PyError (List Cmd) := do
  let length ← _get_line_length max_value record.count
  return spokeCmds num_lanes length record

/-- StationVizPresenter._draw_data (lines 185-223): `num_lanes` is
`len(records) + 1` (line 197). -/
def _draw_data (max_value : ℤ) (records : List Station) : Except PyError (List Cmd) := do
  let num_lanes := records.length + 1
  let spokes ← records.mapM (spokeStep max_value num_lanes)
  return [Cmd.pushTransform, Cmd.translate (WIDTH / 2) (HEIGHT / 2),
      Cmd.setAngleMode "degrees"]
    ++ spokes.flatten ++ [Cmd.popTransform]

/-- StationVizPresenter.draw (lines 121-133): clear, compute the maximum
count, then the title, axis and data passes. -/
def draw (records : List Station) : Except PyError (List Cmd) := do
  let max_value ← pyMax (records.map Station.count)
  let axis ← _draw_axis max_value
  let dataCmds ← _draw_data max_value records
  return Cmd.clear BG_COLOR :: (_draw_title ++ axis ++ dataCmds)

/-- Sum of the angles of the rotate commands in a trace. -/
def rotationSum (cmds : List Cmd) : ℚ :=
  (cmds.map (fun c => match c with | .rotate a => a | _ => 0)).sum

/-- The least multiple of the 5000 tick increment at or above `m`
(ceiling-to-next-increment); spec-side description of the last drawn
tick value. -/
def leastTickAtOrAbove (m : ℤ) : ℤ := 5000 * ((m + 4999) / 5000)

-- Helper lemmas

lemma get_line_length_ok (m c : ℤ) (hm : m ≠ 0) :
    _get_line_length m c = .ok (lineLengthQ m c) := by
  simp [_get_line_length, lineLengthQ, hm]

lemma ratMul_eq (a b : ℚ) : ratMul a b = a * b := by
  rw [ratMul, Rat.mkRat_eq_divInt, Rat.divInt_eq_div]
  push_cast
  conv_rhs => rw [← Rat.num_div_den a, ← Rat.num_div_den b]
  rw [div_mul_div_comm]

lemma ratAdd_eq (a b : ℚ) : ratAdd a b = a + b := by
  have ha : ((a.den : ℚ)) ≠ 0 := Nat.cast_ne_zero.mpr (Rat.den_ne_zero a)
  have hb : ((b.den : ℚ)) ≠ 0 := Nat.cast_ne_zero.mpr (Rat.den_ne_zero b)
  rw [ratAdd, Rat.mkRat_eq_divInt, Rat.divInt_eq_div]
  push_cast
  conv_rhs => rw [← Rat.num_div_den a, ← Rat.num_div_den b]
  field_simp

lemma roundDouble_zero : roundDouble 0 = 0 := rfl

lemma floatLineLength_ok (m c : ℤ) (hm : m ≠ 0) :
    floatLineLength m c = .ok (roundDouble (ratAdd (roundDouble
      (ratMul (roundDouble (Rat.divInt (210 - 70) m))
        (roundDouble (mkRat c 1)))) (mkRat 70 1))) := by
  rw [floatLineLength, if_neg hm]

lemma floatLineLength_275 :
    floatLineLength 275 275 = .ok (LINE_MAX_LEN - 1 / 2 ^ 45) := by
  rw [floatLineLength_ok 275 275 (by decide)]
  refine congrArg Except.ok ?_
  have h : (LINE_MAX_LEN - 1 / 2 ^ 45 : ℚ) = mkRat 7388718138654719 35184372088832 := by
    norm_num [mkRat, Rat.normalize, LINE_MAX_LEN]
  rw [h]
  decide

lemma floatLineLength_1103 :
    floatLineLength 1103 1103 = .ok (LINE_MAX_LEN + 1 / 2 ^ 45) := by
  rw [floatLineLength_ok 1103 1103 (by decide)]
  refine congrArg Except.ok ?_
  have h : (LINE_MAX_LEN + 1 / 2 ^ 45 : ℚ) = mkRat 7388718138654721 35184372088832 := by
    norm_num [mkRat, Rat.normalize, LINE_MAX_LEN]
  rw [h]
  decide

/-- C1 counterexample: the claim that `L(max_value) == MAX_LEN` exactly for
every positive max_value is false in the program's IEEE binary64
arithmetic — at max_value = 275 the computed length is one ulp below
MAX_LEN (CPython prints it as 209.99999999999997). -/
theorem C1_exactness_counterexample :
    floatLineLength 275 275 = .ok (LINE_MAX_LEN - 1 / 2 ^ 45) ∧
    (LINE_MAX_LEN - 1 / 2 ^ 45 : ℚ) ≠ LINE_MAX_LEN := by
  refine ⟨floatLineLength_275, ?_⟩
  norm_num [LINE_MAX_LEN]

/-- C1 amended: the length mapping is the float evaluation of
`L(count) = MIN_LEN + (MAX_LEN - MIN_LEN) * count / max_value` with
MIN_LEN = 70 and MAX_LEN = 210.  For every positive max_value,
L(0) == MIN_LEN exactly even in float arithmetic, and the exact rational
value of the formula has L(max_value) == MAX_LEN exactly; in float
arithmetic that boundary identity holds at the tested max_value = 100 —
where L(0) = 70, L(50) = 140 and L(100) = 210 exactly — but not for every
positive max_value (at 275 the result is one ulp below MAX_LEN). -/
theorem C1_line_length_mapping (m : ℤ) (hm : 0 < m) :
    floatLineLength m 0 = .ok LINE_MIN_LEN ∧
    floatLineLength 100 0 = .ok 70 ∧
    floatLineLength 100 50 = .ok 140 ∧
    floatLineLength 100 100 = .ok 210 ∧
    (∀ c : ℤ, _get_line_length m c =
      .ok (LINE_MIN_LEN + (LINE_MAX_LEN - LINE_MIN_LEN) * (c : ℚ) / (m : ℚ))) ∧
    _get_line_length m 0 = .ok LINE_MIN_LEN ∧
    _get_line_length m m = .ok LINE_MAX_LEN ∧
    LINE_MIN_LEN = 70 ∧ LINE_MAX_LEN = 210 := by
  have hm0 : m ≠ 0 := ne_of_gt hm
  have hq : (m : ℚ) ≠ 0 := Int.cast_ne_zero.mpr hm0
  refine ⟨?_, ?_, ?_, ?_, fun c => ?_, ?_, ?_, rfl, rfl⟩
  · rw [floatLineLength_ok m 0 hm0]
    refine congrArg Except.ok ?_
    have h1 : roundDouble (mkRat 0 1) = 0 := rfl
    rw [h1, ratMul_eq, mul_zero, roundDouble_zero, ratAdd_eq, zero_add]
    decide
  · rw [floatLineLength_ok 100 0 (by decide)]
    exact congrArg Except.ok (by decide)
  · rw [floatLineLength_ok 100 50 (by decide)]
    exact congrArg Except.ok (by decide)
  · rw [floatLineLength_ok 100 100 (by decide)]
    exact congrArg Except.ok (by decide)
  · rw [get_line_length_ok m c hm0]
    unfold lineLengthQ LINE_MIN_LEN LINE_MAX_LEN
    field_simp
    ring
  · rw [get_line_length_ok m 0 hm0]
    unfold lineLengthQ LINE_MIN_LEN LINE_MAX_LEN
    norm_num
  · rw [get_line_length_ok m m hm0]
    unfold lineLengthQ LINE_MIN_LEN LINE_MAX_LEN
    field_simp

/-- Witness for the amended C1 at max_value = 3. -/
theorem C1_line_length_mapping_witness :
    floatLineLength 3 0 = .ok LINE_MIN_LEN :=
  (C1_line_length_mapping 3 (by norm_num)).1

/-- C8 counterexample: the claimed upper bound `L(c) ≤ MAX_LEN` for
`0 ≤ c ≤ max_value` fails in the program's IEEE binary64 arithmetic — at
max_value = count = 1103 the computed length strictly exceeds MAX_LEN by
one ulp (CPython prints it as 210.00000000000003). -/
theorem C8_upper_bound_counterexample :
    floatLineLength 1103 1103 = .ok (LINE_MAX_LEN + 1 / 2 ^ 45) ∧
    LINE_MAX_LEN < LINE_MAX_LEN + 1 / 2 ^ 45 := by
  refine ⟨floatLineLength_1103, ?_⟩
  norm_num [LINE_MAX_LEN]

/-- C8 amended: for every positive max_value and 0 ≤ c ≤ max_value, the
exact rational value of the length formula satisfies
MIN_LEN ≤ L(c) ≤ MAX_LEN and is monotonically non-decreasing in c; in the
program's IEEE binary64 arithmetic the upper bound can be exceeded by one
ulp — at max_value = count = 1103 the computed length is MAX_LEN + 2^(-45),
which is strictly above MAX_LEN. -/
theorem C8_bounds_and_monotone (m c c1 c2 : ℤ) (hm : 0 < m) (hc0 : 0 ≤ c)
    (hcm : c ≤ m) (h12 : c1 ≤ c2) :
    ((∃ x, _get_line_length m c = .ok x ∧ LINE_MIN_LEN ≤ x ∧ x ≤ LINE_MAX_LEN) ∧
    (∀ x1 x2, _get_line_length m c1 = .ok x1 → _get_line_length m c2 = .ok x2 →
      x1 ≤ x2)) ∧
    floatLineLength 1103 1103 = .ok (LINE_MAX_LEN + 1 / 2 ^ 45) ∧
    LINE_MAX_LEN < LINE_MAX_LEN + 1 / 2 ^ 45 := by
  have hm0 : m ≠ 0 := ne_of_gt hm
  have hq : (0 : ℚ) < (m : ℚ) := by exact_mod_cast hm
  refine ⟨⟨?_, ?_⟩, floatLineLength_1103, by norm_num [LINE_MAX_LEN]⟩
  · refine ⟨lineLengthQ m c, get_line_length_ok m c hm0, ?_, ?_⟩
    · unfold lineLengthQ LINE_MIN_LEN LINE_MAX_LEN
      have h1 : (0 : ℚ) ≤ (140 : ℚ) / (m : ℚ) * (c : ℚ) := by
        apply mul_nonneg
        · positivity
        · exact_mod_cast hc0
      norm_num
      linarith
    · unfold lineLengthQ LINE_MIN_LEN LINE_MAX_LEN
      have hcmq : (c : ℚ) ≤ (m : ℚ) := by exact_mod_cast hcm
      have h2 : (140 : ℚ) / (m : ℚ) * (c : ℚ) ≤ (140 : ℚ) / (m : ℚ) * (m : ℚ) := by
        apply mul_le_mul_of_nonneg_left hcmq
        positivity
      have h3 : (140 : ℚ) / (m : ℚ) * (m : ℚ) = 140 := by
        field_simp
      norm_num
      linarith
  · intro x1 x2 h1 h2
    rw [get_line_length_ok m c1 hm0] at h1
    rw [get_line_length_ok m c2 hm0] at h2
    injection h1 with h1
    injection h2 with h2
    subst h1
    subst h2
    unfold lineLengthQ LINE_MIN_LEN LINE_MAX_LEN
    have h12q : (c1 : ℚ) ≤ (c2 : ℚ) := by exact_mod_cast h12
    have h4 : (140 : ℚ) / (m : ℚ) * (c1 : ℚ) ≤ (140 : ℚ) / (m : ℚ) * (c2 : ℚ) := by
      apply mul_le_mul_of_nonneg_left h12q
      positivity
    norm_num
    linarith

/-- Witness for the amended C8 at max_value = 100, c = 50, c1 = 10,
c2 = 20. -/
theorem C8_bounds_and_monotone_witness :
    ∃ x, _get_line_length 100 50 = .ok x ∧ LINE_MIN_LEN ≤ x ∧ x ≤ LINE_MAX_LEN :=
  (C8_bounds_and_monotone 100 50 10 20 (by norm_num) (by norm_num) (by norm_num)
    (by norm_num)).1.1

lemma exceptBind_ok {α β : Type} (a : α) (f : α → Except PyError β) :
    (Except.ok a >>= f) = f a := rfl

lemma exceptBind_error {α β : Type} (e : PyError) (f : α → Except PyError β) :
    ((Except.error e : Except PyError α) >>= f) = .error e := rfl

/-- C2: the loader output is sorted ascending by count, the sort is stable
(records with equal counts keep their source order), and input counts
[500, 100, 300] come out as [100, 300, 500]. -/
theorem C2_sorted_stable (env : String → List RawRow) (loc : String)
    (parsed stations : List Station)
    (hp : (env "berkeley_trips.csv").mapM _parse_data_point = Except.ok parsed)
    (hs : get_stations env loc = Except.ok stations) :
    List.Sorted stationLE stations ∧
    stations.Perm parsed ∧
    (∀ a b : Station, [a, b].Sublist parsed → a.count = b.count →
      [a, b].Sublist stations) ∧
    ((get_stations (fun _ => [⟨some "A", some "aa", some "500"⟩,
        ⟨some "B", some "bb", some "100"⟩,
        ⟨some "C", some "cc", some "300"⟩]) DEFAULT_DATA_LOCATION).map
      (fun l => l.map Station.count)) = Except.ok [100, 300, 500] := by
  have hstations : stations = parsed.insertionSort stationLE := by
    rw [get_stations, hp, exceptBind_ok] at hs
    injection hs with hs
    exact hs.symm
  subst hstations
  refine ⟨List.sorted_insertionSort stationLE parsed,
    List.perm_insertionSort stationLE parsed, ?_, ?_⟩
  · intro a b hsub heq
    exact List.pair_sublist_insertionSort (le_of_eq heq) hsub
  · rfl

/-- Witness for C2 on a concrete three-row dataset. -/
theorem C2_sorted_stable_witness :
    List.Sorted stationLE
      [⟨"B", "bb", 100⟩, ⟨"C", "cc", 300⟩, ⟨"A", "aa", 500⟩] :=
  (C2_sorted_stable
    (fun _ => [⟨some "A", some "aa", some "500"⟩,
      ⟨some "B", some "bb", some "100"⟩,
      ⟨some "C", some "cc", some "300"⟩])
    DEFAULT_DATA_LOCATION
    [⟨"A", "aa", 500⟩, ⟨"B", "bb", 100⟩, ⟨"C", "cc", 300⟩]
    [⟨"B", "bb", 100⟩, ⟨"C", "cc", 300⟩, ⟨"A", "aa", 500⟩]
    rfl rfl).1

/-- C5: `get_stations` ignores its location argument — the source hardcodes
the literal `'berkeley_trips.csv'` (line 91) although its docstring and
`main` pass the requested location — so in batch mode the first positional
argument does not determine the loaded records. -/
theorem C5_location_ignored :
    (∀ (env : String → List RawRow) (loc1 loc2 : String),
      get_stations env loc1 = get_stations env loc2) ∧
    get_stations
      (fun loc => if loc = "berkeley_trips.csv"
        then [⟨some "Ashby", some "as", some "100"⟩]
        else [⟨some "Colma", some "cm", some "999"⟩])
      "other_data.csv"
      = Except.ok [⟨"Ashby", "as", 100⟩] := by
  exact ⟨fun env loc1 loc2 => rfl, rfl⟩

lemma foldl_max_zeros (l : List ℤ) (h : ∀ x ∈ l, x = 0) : l.foldl max 0 = 0 := by
  induction l with
  | nil => rfl
  | cons a t ih =>
    have ha : a = 0 := h a (by simp)
    rw [List.foldl_cons, ha]
    simpa using ih (fun x hx => h x (by simp [hx]))

lemma pyMax_all_zero (l : List ℤ) (hne : l ≠ []) (h : ∀ x ∈ l, x = 0) :
    pyMax l = .ok 0 := by
  cases l with
  | nil => exact absurd rfl hne
  | cons a t =>
    have ha : a = 0 := h a (by simp)
    rw [pyMax, ha]
    rw [foldl_max_zeros t (fun x hx => h x (by simp [hx]))]

lemma draw_axis_zero : _draw_axis 0 = .error .zeroDivisionError := by rfl

/-- C3 counterexample: the source has no DegenerateDatasetError — on an
all-zero dataset `draw` reaches the division `/ max_value` with
`max_value == 0` and raises ZeroDivisionError. -/
theorem C3_counterexample :
    draw [⟨"Ashby", "as", 0⟩] = .error .zeroDivisionError := by rfl

/-- C3 amended: for every non-empty record sequence in which every count is
0, `draw` fails by performing the division by zero in the length mapping
(Python ZeroDivisionError); no DegenerateDatasetError exists in the code. -/
theorem C3_all_zero_raises (records : List Station) (hne : records ≠ [])
    (hz : ∀ r ∈ records, r.count = 0) :
    draw records = .error .zeroDivisionError := by
  have hmap : ∀ x ∈ records.map Station.count, x = 0 := by
    intro x hx
    rcases List.mem_map.mp hx with ⟨r, hr, rfl⟩
    exact hz r hr
  have hne2 : records.map Station.count ≠ [] := by
    intro h
    exact hne (by simpa using h)
  have hmax : pyMax (records.map Station.count) = .ok 0 :=
    pyMax_all_zero _ hne2 hmap
  rw [draw, hmax, exceptBind_ok, draw_axis_zero, exceptBind_error]

/-- Witness for the amended C3 on a two-record all-zero dataset. -/
theorem C3_all_zero_raises_witness :
    draw [⟨"West Oakland", "wo", 0⟩, ⟨"Colma", "cm", 0⟩] = .error .zeroDivisionError :=
  C3_all_zero_raises [⟨"West Oakland", "wo", 0⟩, ⟨"Colma", "cm", 0⟩]
    (by decide) (by decide)

/-- C9: rendering is deterministic and idempotent — `draw` issues a command
trace that is a function of the records alone, so two invocations with
identical inputs produce identical traces. -/
theorem C9_draw_deterministic (records : List Station)
    (out1 out2 : Except PyError (List Cmd))
    (h1 : draw records = out1) (h2 : draw records = out2) : out1 = out2 := by
  rw [← h1, ← h2]

/-- Witness for C9 on a concrete dataset. -/
theorem C9_draw_deterministic_witness :
    draw [⟨"Ashby", "as", 5⟩] = draw [⟨"Ashby", "as", 5⟩] :=
  C9_draw_deterministic [⟨"Ashby", "as", 5⟩]
    (draw [⟨"Ashby", "as", 5⟩]) (draw [⟨"Ashby", "as", 5⟩]) rfl rfl

-- Parsing lemmas

lemma digit_not_whitespace (c : Char) (h : isAsciiDigit c = true) :
    c.isWhitespace = false := by
  have hs : c ≠ ' ' := by intro he; rw [he] at h; exact absurd h (by decide)
  have ht : c ≠ '\t' := by intro he; rw [he] at h; exact absurd h (by decide)
  have hr : c ≠ '\r' := by intro he; rw [he] at h; exact absurd h (by decide)
  have hn : c ≠ '\n' := by intro he; rw [he] at h; exact absurd h (by decide)
  simp [Char.isWhitespace, hs, ht, hr, hn]

lemma dropWhile_eq_self_of (p : Char → Bool) (l : List Char)
    (h : ∀ c ∈ l, p c = false) : l.dropWhile p = l := by
  cases l with
  | nil => rfl
  | cons a t =>
    rw [List.dropWhile_cons, h a (by simp)]
    simp

lemma pyStrip_digits (cs : List Char) (h : ∀ c ∈ cs, isAsciiDigit c = true) :
    pyStrip cs = cs := by
  have hw : ∀ c ∈ cs, c.isWhitespace = false :=
    fun c hc => digit_not_whitespace c (h c hc)
  unfold pyStrip
  rw [dropWhile_eq_self_of _ _ hw]
  rw [dropWhile_eq_self_of _ _ (fun c hc => hw c (List.mem_reverse.mp hc))]
  exact List.reverse_reverse cs

lemma digit_ne_underscore (c : Char) (h : isAsciiDigit c = true) : c ≠ '_' := by
  intro he
  rw [he] at h
  exact absurd h (by decide)

lemma pyDigitsRest_cons (a : Char) (t : List Char) :
    pyDigitsRest (a :: t) =
      ((if a = '_' then
        match t with
        | [] => false
        | d :: _ => isAsciiDigit d
      else isAsciiDigit a) && pyDigitsRest t) := rfl

lemma pyDigitsRest_digits (l : List Char) (h : ∀ c ∈ l, isAsciiDigit c = true) :
    pyDigitsRest l = true := by
  induction l with
  | nil => rfl
  | cons a t ih =>
    have ha : isAsciiDigit a = true := h a (by simp)
    rw [pyDigitsRest_cons, if_neg (digit_ne_underscore a ha), ha,
      ih (fun c hc => h c (by simp [hc]))]
    rfl

lemma pyValidDigits_digits (cs : List Char) (hne : cs ≠ [])
    (h : ∀ c ∈ cs, isAsciiDigit c = true) : pyValidDigits cs = true := by
  cases cs with
  | nil => exact absurd rfl hne
  | cons a t =>
    rw [pyValidDigits, h a (by simp),
      pyDigitsRest_digits t (fun c hc => h c (by simp [hc]))]
    rfl

lemma filter_underscore_digits (cs : List Char)
    (h : ∀ c ∈ cs, isAsciiDigit c = true) :
    cs.filter (fun c => c ≠ '_') = cs := by
  apply List.filter_eq_self.mpr
  intro c hc
  simp [digit_ne_underscore c (h c hc)]

lemma pyIntOfChars_digits (cs : List Char) (hne : cs ≠ [])
    (h : ∀ c ∈ cs, isAsciiDigit c = true) :
    pyIntOfChars cs = some (digitsValue cs) := by
  have hstrip : pyStrip cs = cs := pyStrip_digits cs h
  unfold pyIntOfChars
  rw [hstrip]
  cases cs with
  | nil => exact absurd rfl hne
  | cons c rest =>
    have hc : isAsciiDigit c = true := h c (by simp)
    have hplus : c ≠ '+' := by intro he; rw [he] at hc; exact absurd hc (by decide)
    have hminus : c ≠ '-' := by intro he; rw [he] at hc; exact absurd hc (by decide)
    have hvalid : pyValidDigits (c :: rest) = true :=
      pyValidDigits_digits (c :: rest) (by simp) h
    have hfilter : (c :: rest).filter (fun x => x ≠ '_') = c :: rest :=
      filter_underscore_digits (c :: rest) h
    split
    · rename_i heq
      injection heq with h1 h2
      exact absurd h1 hplus
    · rename_i heq
      injection heq with h1 h2
      exact absurd h1 hminus
    · rw [hvalid, hfilter]
      rfl

/-- C4 counterexample: Python int() accepts a leading sign, so a count of
"-5" — not a valid non-negative integer — parses successfully to the
negative count -5 instead of failing with MalformedRecordError. -/
theorem C4_counterexample :
    _parse_data_point ⟨some "x", some "xx", some "-5"⟩ = .ok ⟨"x", "xx", -5⟩ := by
  rfl

/-- C4 amended: parsing strips commas from the count field and parses the
remainder with Python int() semantics, which accepts an optional sign (the
count may therefore be negative); it fails with MalformedRecordError
(ValueError) exactly when the comma-stripped text is not a valid optionally
signed integer; it fails with MissingFieldError (KeyError) when the count
field is absent, or when the count parses and the name or code field is
absent — count is read first, so a malformed count masks a missing name or
code; the row {name: "test", code: "te", count: "1,234"} yields a record
(test, te, 1234), count "0" yields 0, and count "abc" fails. -/
theorem C4_parse_errors :
    (∀ (name code s : String) (n : ℤ),
      pyIntOfChars (stripCommas s).data = some n →
      _parse_data_point ⟨some name, some code, some s⟩ = .ok ⟨name, code, n⟩) ∧
    (∀ (name code s : String),
      pyIntOfChars (stripCommas s).data = none →
      _parse_data_point ⟨some name, some code, some s⟩ = .error .valueError) ∧
    (∀ row : RawRow, row.count = none → _parse_data_point row = .error .keyError) ∧
    (∀ (code s : String) (n : ℤ),
      pyIntOfChars (stripCommas s).data = some n →
      _parse_data_point ⟨none, some code, some s⟩ = .error .keyError) ∧
    (∀ (name s : String) (n : ℤ),
      pyIntOfChars (stripCommas s).data = some n →
      _parse_data_point ⟨some name, none, some s⟩ = .error .keyError) ∧
    _parse_data_point ⟨some "test", some "te", some "1,234"⟩ =
      .ok ⟨"test", "te", 1234⟩ ∧
    _parse_data_point ⟨some "z", some "zz", some "0"⟩ = .ok ⟨"z", "zz", 0⟩ ∧
    _parse_data_point ⟨some "x", some "xx", some "abc"⟩ = .error .valueError := by
  refine ⟨?_, ?_, ?_, ?_, ?_, ?_, ?_, ?_⟩
  · intro name code s n hn
    simp [_parse_data_point, getField, pyInt, exceptBind_ok, exceptBind_error, hn]
  · intro name code s hn
    simp [_parse_data_point, getField, pyInt, exceptBind_ok, exceptBind_error, hn]
  · intro row hrow
    obtain ⟨a, b, cnt⟩ := row
    simp only at hrow
    subst hrow
    rfl
  · intro code s n hn
    simp [_parse_data_point, getField, pyInt, exceptBind_ok, exceptBind_error, hn]
  · intro name s n hn
    simp [_parse_data_point, getField, pyInt, exceptBind_ok, exceptBind_error, hn]
  · rfl
  · rfl
  · rfl

/-- Witness for the amended C4 on a plain decimal count. -/
theorem C4_parse_errors_witness :
    _parse_data_point ⟨some "a", some "aa", some "7"⟩ = .ok ⟨"a", "aa", 7⟩ :=
  C4_parse_errors.1 "a" "aa" "7" 7 rfl

/-- C10: every comma is removed from the count text regardless of position
before integer conversion, so any placement of commas among digits parses
to the integer formed by the remaining digits; "1,2,3,4", "12,,34" and
",1234," all parse to 1234, with no validation of thousands grouping. -/
theorem C10_commas_stripped_anywhere (name code : String) (cs : List Char)
    (hall : ∀ c ∈ cs, isAsciiDigit c = true ∨ c = ',')
    (hsome : ∃ c ∈ cs, isAsciiDigit c = true) :
    _parse_data_point ⟨some name, some code, some ⟨cs⟩⟩ =
      .ok ⟨name, code, digitsValue (cs.filter isAsciiDigit)⟩ ∧
    _parse_data_point ⟨some "s", some "ss", some "1,2,3,4"⟩ =
      .ok ⟨"s", "ss", 1234⟩ ∧
    _parse_data_point ⟨some "s", some "ss", some "12,,34"⟩ =
      .ok ⟨"s", "ss", 1234⟩ ∧
    _parse_data_point ⟨some "s", some "ss", some ",1234,"⟩ =
      .ok ⟨"s", "ss", 1234⟩ := by
  refine ⟨?_, rfl, rfl, rfl⟩
  have hcomma_not_digit : isAsciiDigit ',' = false := by decide
  have hds_digits : ∀ c ∈ cs.filter (fun c => c ≠ ','), isAsciiDigit c = true := by
    intro c hc
    rw [List.mem_filter] at hc
    rcases hall c hc.1 with hd | hcm
    · exact hd
    · rw [hcm] at hc
      exact absurd hc.2 (by decide)
  have hfilter_eq : cs.filter (fun c => c ≠ ',') = cs.filter isAsciiDigit := by
    apply List.filter_congr
    intro c hc
    rcases hall c hc with hd | hcm
    · have : c ≠ ',' := by
        intro he
        rw [he] at hd
        exact absurd hd (by decide)
      simp [this, hd]
    · rw [hcm]
      simp [hcomma_not_digit]
  have hds_ne : cs.filter (fun c => c ≠ ',') ≠ [] := by
    obtain ⟨c, hc, hd⟩ := hsome
    have hcne : c ≠ ',' := by
      intro he
      rw [he] at hd
      exact absurd hd (by decide)
    intro he
    have : c ∈ cs.filter (fun x => x ≠ ',') := by
      rw [List.mem_filter]
      exact ⟨hc, by simp [hcne]⟩
    rw [he] at this
    exact absurd this (List.not_mem_nil c)
  have hpy : pyIntOfChars ((stripCommas ⟨cs⟩).data) =
      some (digitsValue (cs.filter isAsciiDigit)) := by
    have hdata : (stripCommas ⟨cs⟩).data = cs.filter (fun c => c ≠ ',') := rfl
    rw [hdata, pyIntOfChars_digits _ hds_ne hds_digits, hfilter_eq]
  simp [_parse_data_point, getField, pyInt, exceptBind_ok, exceptBind_error, hpy]

/-- Witness for C10 on the comma-laden digit string "1,2". -/
theorem C10_commas_stripped_anywhere_witness :
    _parse_data_point ⟨some "w", some "ww", some ⟨['1', ',', '2']⟩⟩ =
      .ok ⟨"w", "ww", digitsValue (['1', ',', '2'].filter isAsciiDigit)⟩ :=
  (C10_commas_stripped_anywhere "w" "ww" ['1', ',', '2']
    (by decide) (by decide)).1

-- Axis and spoke trace lemmas

lemma mapM_tickStep_ok (m : ℤ) (hm : m ≠ 0) (l : List ℤ) :
    l.mapM (tickStep m) =
      Except.ok (l.map (fun v => tickCmds (lineLengthQ m v) v)) := by
  induction l with
  | nil => rfl
  | cons a t ih =>
    have hstep : tickStep m a = Except.ok (tickCmds (lineLengthQ m a) a) := by
      rw [tickStep, get_line_length_ok m a hm, exceptBind_ok]
      rfl
    rw [List.mapM_cons, hstep, exceptBind_ok, ih, exceptBind_ok]
    rfl

lemma draw_axis_ok (m : ℤ) (hm : m ≠ 0) :
    _draw_axis m = Except.ok (axisHeader ++
      ((tickValues m).map (fun v => tickCmds (lineLengthQ m v) v)).flatten ++
      [Cmd.popTransform]) := by
  rw [_draw_axis, mapM_tickStep_ok m hm, exceptBind_ok]
  rfl

/-- C6: the reference-ring pass draws, for exactly the multiples of 5000
from 0 up to the least multiple of 5000 at or above max_value, an unfilled
ring of radius L(tick) and the thousands-formatted tick value as text at
(L(tick), 0) in the centered local frame. -/
theorem C6_axis_reference_rings (m : ℤ) (hm : 0 < m) :
    _draw_axis m = Except.ok (axisHeader ++
      ((tickValues m).map (fun v => tickCmds (lineLengthQ m v) v)).flatten ++
      [Cmd.popTransform]) ∧
    (∀ v : ℤ, v ∈ tickValues m ↔
      0 ≤ v ∧ v % 5000 = 0 ∧ v ≤ leastTickAtOrAbove m) ∧
    m ≤ leastTickAtOrAbove m ∧
    leastTickAtOrAbove m % 5000 = 0 ∧
    (∀ y : ℤ, m ≤ y → y % 5000 = 0 → leastTickAtOrAbove m ≤ y) ∧
    (∀ (x : ℚ) (v : ℤ), tickCmds x v =
      [Cmd.clearFill, Cmd.setStroke TICK_COLOR, Cmd.drawEllipse 0 0 x x,
       Cmd.clearStroke, Cmd.setFill FG_COLOR,
       Cmd.drawText x 0 (formatThousands v)]) := by
  refine ⟨draw_axis_ok m (ne_of_gt hm), ?_, ?_, ?_, ?_, fun x v => rfl⟩
  · intro v
    constructor
    · intro hv
      rw [tickValues, pythonRange] at hv
      rcases List.mem_map.mp hv with ⟨k, hk, rfl⟩
      rw [List.mem_range] at hk
      unfold leastTickAtOrAbove
      omega
    · rintro ⟨h0, hmod, hle⟩
      rw [tickValues, pythonRange]
      apply List.mem_map.mpr
      unfold leastTickAtOrAbove at hle
      refine ⟨(v / 5000).toNat, List.mem_range.mpr ?_, ?_⟩
      · omega
      · omega
  · unfold leastTickAtOrAbove
    omega
  · unfold leastTickAtOrAbove
    omega
  · intro y h1 h2
    unfold leastTickAtOrAbove
    omega

/-- Witness for C6 at max_value = 7001: the last tick is one increment past
the maximum. -/
theorem C6_axis_reference_rings_witness :
    (7001 : ℤ) ≤ leastTickAtOrAbove 7001 :=
  (C6_axis_reference_rings 7001 (by norm_num)).2.2.1

lemma mapM_spokeStep_ok (m : ℤ) (hm : m ≠ 0) (nl : ℕ) (l : List Station) :
    l.mapM (spokeStep m nl) =
      Except.ok (l.map (fun r => spokeCmds nl (lineLengthQ m r.count) r)) := by
  induction l with
  | nil => rfl
  | cons a t ih =>
    have hstep : spokeStep m nl a =
        Except.ok (spokeCmds nl (lineLengthQ m a.count) a) := by
      rw [spokeStep, get_line_length_ok m a.count hm, exceptBind_ok]
      rfl
    rw [List.mapM_cons, hstep, exceptBind_ok, ih, exceptBind_ok]
    rfl

lemma draw_data_ok (m : ℤ) (hm : m ≠ 0) (records : List Station) :
    _draw_data m records = Except.ok
      ([Cmd.pushTransform, Cmd.translate (WIDTH / 2) (HEIGHT / 2),
        Cmd.setAngleMode "degrees"]
        ++ (records.map (fun r => spokeCmds (records.length + 1)
              (lineLengthQ m r.count) r)).flatten
        ++ [Cmd.popTransform]) := by
  simp only [_draw_data]
  rw [mapM_spokeStep_ok m hm, exceptBind_ok]
  rfl

lemma rotationSum_append (a b : List Cmd) :
    rotationSum (a ++ b) = rotationSum a + rotationSum b := by
  rw [rotationSum, rotationSum, rotationSum, List.map_append, List.sum_append]

lemma rotationSum_spokeCmds (nl : ℕ) (x : ℚ) (r : Station) :
    rotationSum (spokeCmds nl x r) = 360 / (nl : ℚ) := by
  simp [rotationSum, spokeCmds]

lemma rotationSum_spokes (m : ℤ) (nl : ℕ) (l : List Station) :
    rotationSum ((l.map (fun r => spokeCmds nl (lineLengthQ m r.count) r)).flatten)
      = (l.length : ℚ) * (360 / (nl : ℚ)) := by
  induction l with
  | nil => simp [rotationSum]
  | cons a t ih =>
    rw [List.map_cons, List.flatten_cons, rotationSum_append,
      rotationSum_spokeCmds, ih, List.length_cons]
    push_cast
    ring

/-- C7: the data-spoke pass reserves len(records) + 1 lanes; the k-th
record is drawn after a cumulative rotation of k * 360 / (n + 1) degrees,
as a line segment from radius MIN_LEN to radius L(count) along the local
x-axis followed by the station name as left-aligned text just beyond the
line's outer end. -/
theorem C7_data_spokes (m : ℤ) (records : List Station) (hm : 0 < m) :
    _draw_data m records = Except.ok
      ([Cmd.pushTransform, Cmd.translate (WIDTH / 2) (HEIGHT / 2),
        Cmd.setAngleMode "degrees"]
        ++ (records.map (fun r => spokeCmds (records.length + 1)
              (lineLengthQ m r.count) r)).flatten
        ++ [Cmd.popTransform]) ∧
    (∀ k : ℕ, k ≤ records.length →
      rotationSum (((records.take k).map (fun r =>
          spokeCmds (records.length + 1) (lineLengthQ m r.count) r)).flatten)
        = (k : ℚ) * (360 / ((records.length : ℚ) + 1))) ∧
    (∀ (x : ℚ) (r : Station), spokeCmds (records.length + 1) x r =
      [Cmd.rotate (360 / ((records.length : ℚ) + 1)), Cmd.clearFill,
       Cmd.setStroke FG_COLOR, Cmd.drawLine LINE_MIN_LEN 0 x 0,
       Cmd.clearStroke, Cmd.setFill FG_COLOR,
       Cmd.setTextFont "PublicSans-Regular.otf" 10,
       Cmd.setTextAlign "left" "center", Cmd.drawText (x + 2) 0 r.name]) := by
  have hcast : ((records.length + 1 : ℕ) : ℚ) = (records.length : ℚ) + 1 := by
    push_cast
    ring
  refine ⟨draw_data_ok m (ne_of_gt hm) records, ?_, ?_⟩
  · intro k hk
    rw [rotationSum_spokes m (records.length + 1) (records.take k),
      List.length_take, hcast]
    congr 1
    simp [Nat.min_eq_left hk]
  · intro x r
    simp [spokeCmds, LINE_MIN_LEN, hcast]

/-- Witness for C7 on a single-record dataset: the first spoke sits at a
cumulative rotation of 1 * 360 / 2 degrees. -/
theorem C7_data_spokes_witness :
    rotationSum ((([(⟨"Ashby", "as", 50⟩ : Station)].take 1).map
        (fun r => spokeCmds ([(⟨"Ashby", "as", 50⟩ : Station)].length + 1)
          (lineLengthQ 100 r.count) r)).flatten)
      = (1 : ℚ) * (360 / (([(⟨"Ashby", "as", 50⟩ : Station)].length : ℚ) + 1)) :=
  (C7_data_spokes 100 [⟨"Ashby", "as", 50⟩] (by norm_num)).2.1 1 (by simp)

end BartViz
